import Mathlib

/-!
Verification development for the MD_OnePin library (PRI-side single-wire
link protocol engine).

The embedding models the C++ class `MD_OnePin` (files MD_OnePin.h,
MD_OnePin.cpp, MD_OnePin_Protocol.h).  Machine integers are modelled as
`Nat` with explicit reduction modulo `2^w` wherever the C code truncates
(`uint8_t` constructor parameters, `uint16_t` calibration fields, the
`uint32_t` packet and `micros()` clock).  The delay-argument subtraction
`SLOT - _writeTime` / `SLOT - _switchTime` is performed by the source on
`uint16_t` operands (AVR `unsigned int`), so it wraps modulo `2^16`; this
is modelled by `usub16` with no clamping, exactly as in the macro
`OP_SIGNAL` and the inline delays of `read` and `resetComm`.

Each public operation is given two views that are connected by
definition:
  * a slot-level trace (`Slot`), one entry per Reset/Presence, Write-0,
    Write-1 or Read slot the operation emits, and
  * the primitive pin-driver event trace (`Ev`) obtained by expanding
    each slot through `slotEvents`, which is the literal sequence of
    `pinMode` / `digitalWrite` / `delayMicroseconds` / `digitalRead`
    calls of the source.
Sampled line levels (the `digitalRead` results) are inputs supplied by
the environment: `level` for the presence sample of `resetComm`, and
`bits i` for the sample of the i-th Read slot.
-/

/-! ## Timing constants (MD_OnePin_Protocol.h) -/

/-- Base time slot `OPT` in microseconds. -/
def OPT : Nat := 80

/-- Reset low signal duration, `5 * OPT`. -/
def OPT_RST_SIGNAL : Nat := 5 * OPT

/-- Presence sampling offset after the reset rising edge, `OPT`. -/
def OPT_RST_PRS_SAMPLE : Nat := OPT

/-- Idle time after the presence sample, `(3 * OPT) / 2`. -/
def OPT_RST_END : Nat := 3 * OPT / 2

/-- Write-1 low signal duration, `OPT / 2`. -/
def OPT_WR1_SIGNAL : Nat := OPT / 2

/-- Write-1 high pause duration, `OPT - OPT_WR1_SIGNAL`. -/
def OPT_WR1_PAUSE : Nat := OPT - OPT_WR1_SIGNAL

/-- Write-0 low signal duration, `(3 * OPT) / 2`. -/
def OPT_WR0_SIGNAL : Nat := 3 * OPT / 2

/-- Write-0 high pause duration, `(2 * OPT) - OPT_WR0_SIGNAL`. -/
def OPT_WR0_PAUSE : Nat := 2 * OPT - OPT_WR0_SIGNAL

/-- Read initiation low signal duration, `(5 * OPT) / 2`. -/
def OPT_RD_INIT : Nat := 5 * OPT / 2

/-- SEC hold time to signal a read bit, `OPT`. -/
def OPT_RD0_SIGNAL : Nat := OPT

/-- PRI sampling offset in a read slot, `OPT_RD0_SIGNAL / 2`. -/
def OPT_RD_SAMPLE : Nat := OPT_RD0_SIGNAL / 2

/-- PRI pause after sampling a read bit, `OPT`. -/
def OPT_RD_PAUSE : Nat := OPT

/-! ## Machine arithmetic helpers -/

/-- Wrapping subtraction on `uint16_t` operands, as performed by the
source in every `delayMicroseconds(SLOT - correction)` expression. -/
def usub16 (a b : Nat) : Nat := (a % 65536 + 65536 - b % 65536) % 65536

/-- Wrapping subtraction on `uint32_t` operands, as performed by
`micros() - start` in `begin`. -/
def usub32 (a b : Nat) : Nat :=
  (a % 4294967296 + 4294967296 - b % 4294967296) % 4294967296

/-! ## Pin-driver events and protocol slots -/

/-- Primitive pin-driver events recorded by the embedding: the Arduino
calls `pinMode(pin, OUTPUT)`, `pinMode(pin, INPUT_PULLUP)`,
`digitalWrite(pin, HIGH/LOW)`, `delayMicroseconds(n)` (with the argument
as computed by the source) and `digitalRead` (with the level returned by
the environment, `true` = HIGH). -/
inductive Ev where
  | setOutput : Ev
  | setInput : Ev
  | driveHigh : Ev
  | driveLow : Ev
  | delayUs (n : Nat) : Ev
  | sampleIn (level : Bool) : Ev
deriving DecidableEq, Repr

/-- Protocol slots emitted by the engine.  `rstP level` is a
Reset/Presence slot whose presence sample read the given line level
(`true` = HIGH); `rdBit level` is a Read slot whose sample read the
given level (the received bit is `level`). -/
inductive Slot where
  | rstP (level : Bool) : Slot
  | wr1 : Slot
  | wr0 : Slot
  | rdBit (level : Bool) : Slot
deriving DecidableEq, Repr

/-- Whether a slot is a Reset/Presence slot. -/
def Slot.isReset : Slot → Bool
  | .rstP _ => true
  | _ => false

/-- Whether a slot is a data (Write-0 or Write-1) slot. -/
def Slot.isData : Slot → Bool
  | .wr1 => true
  | .wr0 => true
  | _ => false

/-- Whether a slot is a Read slot. -/
def Slot.isRd : Slot → Bool
  | .rdBit _ => true
  | _ => false

/-- Events of the `OP_SIGNAL(active, pause)` macro: drive LOW, delay
`active - _writeTime`, drive HIGH, and if `pause != 0` delay
`pause - _writeTime`. -/
def opSignalEv (wt active pause : Nat) : List Ev :=
  [Ev.driveLow, Ev.delayUs (usub16 active wt), Ev.driveHigh] ++
    (if pause = 0 then [] else [Ev.delayUs (usub16 pause wt)])

/-- Primitive events of one slot, given the calibration corrections
`wt = _writeTime` and `st = _switchTime`.  Each branch is the literal
statement sequence of the source: the Reset/Presence slot is the body of
`MD_OnePin::resetComm`, the write slots are the two arms of the loop in
`MD_OnePin::write`, and the read slot is the loop body of
`MD_OnePin::read`. -/
def slotEvents (wt st : Nat) : Slot → List Ev
  | .rstP level =>
      [Ev.setOutput] ++ opSignalEv wt OPT_RST_SIGNAL 0 ++
        [Ev.setInput, Ev.delayUs (usub16 OPT_RST_PRS_SAMPLE st),
         Ev.sampleIn level, Ev.setOutput,
         Ev.delayUs (usub16 OPT_RST_END st)]
  | .wr1 => opSignalEv wt OPT_WR1_SIGNAL OPT_WR1_PAUSE
  | .wr0 => opSignalEv wt OPT_WR0_SIGNAL OPT_WR0_PAUSE
  | .rdBit level =>
      opSignalEv wt OPT_RD_INIT 0 ++
        [Ev.setInput, Ev.delayUs (usub16 OPT_RD_SAMPLE st),
         Ev.sampleIn level, Ev.setOutput,
         Ev.delayUs (usub16 OPT_RD_PAUSE st)]

/-- Expansion of a slot trace into the primitive event trace. -/
def slotsEvents (wt st : Nat) (slots : List Slot) : List Ev :=
  (slots.map (slotEvents wt st)).flatten

/-! ## The MD_OnePin object -/

/-- State of one `MD_OnePin` instance: the private members `_pin`,
`_presence`, `_bppPri`, `_bppSec`, `_switchTime`, `_writeTime`. -/
structure MD_OnePin where
  pin : Nat
  presence : Bool
  bppPri : Nat
  bppSec : Nat
  switchTime : Nat
  writeTime : Nat
deriving DecidableEq, Repr

namespace MD_OnePin

/-- The class constructor `MD_OnePin(pin, bppPri, bppSec)`: it stores the
pin and the two widths (each a `uint8_t`, hence taken modulo 256) and
sets `_presence` to `false`.  No validation of any kind is performed.
`_switchTime` and `_writeTime` are uninitialized in C++ until `begin`
runs; the embedding makes the indeterminate initial contents explicit
parameters `switchTime0` and `writeTime0`. -/
def construct (pin bppPri bppSec switchTime0 writeTime0 : Nat) : MD_OnePin :=
  { pin := pin % 256, presence := false,
    bppPri := bppPri % 256, bppSec := bppSec % 256,
    switchTime := switchTime0 % 65536, writeTime := writeTime0 % 65536 }

/-- `MD_OnePin::resetComm`: emit the Reset/Presence slot and set
`_presence` to whether the presence sample read LOW.  `level` is the
line level returned by `digitalRead` at the sampling point (`true` =
HIGH).  Returns the updated object, the slot trace and the returned
Bool. -/
def resetComm (s : MD_OnePin) (level : Bool) : MD_OnePin × List Slot × Bool :=
  let presence := level == false
  ({ s with presence := presence }, [Slot.rstP level], presence)

/-- The data-slot sequence of the loop in `MD_OnePin::write`: `n` times,
test `data & 1` (Write-1 if set, Write-0 if clear) and shift `data`
right by one. -/
def writeSlotList : Nat → Nat → List Slot
  | _, 0 => []
  | data, n + 1 =>
      (if data % 2 = 1 then Slot.wr1 else Slot.wr0) ::
        writeSlotList (data / 2) n

/-- `MD_OnePin::write(data, noReset)`: unless `noReset`, run
`resetComm`; if `noReset || _presence`, emit the `_bppPri` data slots
LSB first; return `_presence`.  `data` is a `uint32_t` parameter, hence
taken modulo `2^32`; `level` is the environment's line level for the
presence sample (unused when `noReset`). -/
def write (s : MD_OnePin) (data : Nat) (noReset : Bool) (level : Bool) :
    MD_OnePin × List Slot × Bool :=
  let data := data % 4294967296
  let s1 := if noReset then s else (resetComm s level).1
  let rtr := if noReset then ([] : List Slot) else (resetComm s level).2.1
  let dtr := if noReset || s1.presence then writeSlotList data s1.bppPri
    else []
  (s1, rtr ++ dtr, s1.presence)

/-- The read loop of `MD_OnePin::read`: `n` remaining iterations, `i`
the current loop index, `packet` and `mask` the `uint32_t` accumulator
and mask.  Each iteration emits one Read slot sampling `bits i`, ORs
`mask` into `packet` when the sample was HIGH, and doubles `mask`
(modulo `2^32`, as `mask` is a `uint32_t`). -/
def readLoop (bits : Nat → Bool) : Nat → Nat → Nat → Nat → Nat × List Slot
  | 0, _, packet, _ => (packet, [])
  | n + 1, i, packet, mask =>
      let b := bits i
      let packet1 := if b then packet ||| mask else packet
      let r := readLoop bits n (i + 1) packet1 (mask * 2 % 4294967296)
      (r.1, Slot.rdBit b :: r.2)

/-- `MD_OnePin::read(noReset)`: unless `noReset`, run `resetComm`; if a
reset was performed and `_presence` is false, return `0xffffffff`
without emitting any Read slot; otherwise emit `_bppSec` Read slots,
accumulating bit `i` at mask `1 <<< i`, and return the packet.  `level`
is the environment's presence-sample level, `bits i` the level sampled
in the i-th Read slot. -/
def read (s : MD_OnePin) (noReset : Bool) (level : Bool) (bits : Nat → Bool) :
    MD_OnePin × List Slot × Nat :=
  let s1 := if noReset then s else (resetComm s level).1
  let rtr := if noReset then ([] : List Slot) else (resetComm s level).2.1
  if !noReset && !s1.presence then (s1, rtr, 4294967295)
  else
    let r := readLoop bits s1.bppSec 0 0 1
    (s1, rtr ++ r.2, r.1)

/-- The primitive event trace of `MD_OnePin::begin`: 64 iterations of
(`pinMode OUTPUT`, `pinMode INPUT_PULLUP`), then `pinMode OUTPUT`, then
128 iterations of (`digitalWrite HIGH`, `digitalWrite LOW`), then
`digitalWrite HIGH`. -/
def beginEvents : List Ev :=
  (List.replicate 64 [Ev.setOutput, Ev.setInput]).flatten ++
    [Ev.setOutput] ++
      (List.replicate 128 [Ev.driveHigh, Ev.driveLow]).flatten ++
        [Ev.driveHigh]

/-- `MD_OnePin::begin`: calibration.  `c0` is the `micros()` reading
taken at entry, `c1` the reading after the 64 direction-switch
iterations, `c2` the reading before and `c3` the reading after the 128
drive iterations (all `uint32_t`).  `_switchTime` is the wrapped elapsed
time shifted right by 7 (divide by 128) truncated to `uint16_t`;
`_writeTime` is the second elapsed time shifted right by 8 (divide by
256) truncated to `uint16_t`. -/
def begin (s : MD_OnePin) (c0 c1 c2 c3 : Nat) : MD_OnePin × List Ev :=
  ({ s with switchTime := usub32 c1 c0 / 128 % 65536,
            writeTime := usub32 c3 c2 / 256 % 65536 }, beginEvents)

/-- `MD_OnePin::isPresent`: return the stored `_presence`. -/
def isPresent (s : MD_OnePin) : Bool := s.presence

end MD_OnePin

/-! ## Pin state semantics of the event trace -/

/-- Electrical state of the I/O pin as the host sees it: the direction
register (`output = true` means driven) and the output level register
(`digitalWrite` updates it in either mode, `pinMode` preserves it). -/
structure PinState where
  output : Bool
  level : Bool
deriving DecidableEq, Repr

/-- Effect of one primitive event on the pin state. -/
def stepPin (p : PinState) : Ev → PinState
  | .setOutput => { p with output := true }
  | .setInput => { p with output := false }
  | .driveHigh => { p with level := true }
  | .driveLow => { p with level := false }
  | .delayUs _ => p
  | .sampleIn _ => p

/-- Pin state after running an event trace. -/
def runPin (p : PinState) (tr : List Ev) : PinState := tr.foldl stepPin p

/-- The idle pin state: driven output at logical HIGH. -/
def idlePin : PinState := { output := true, level := true }

/-- Decoder for a data-slot sequence, LSB first: the value whose bit `i`
is 1 exactly when the i-th slot is a Write-1 slot (the SEC-side reading
of the wire). -/
def decodeSlots : List Slot → Nat
  | [] => 0
  | Slot.wr1 :: t => 1 + 2 * decodeSlots t
  | _ :: t => 2 * decodeSlots t

/-! ## Helper lemmas -/

theorem usub16_eq_sub (a b : Nat) (hb : b ≤ a) (ha : a < 65536) :
    usub16 a b = a - b := by
  unfold usub16; omega

theorem usub32_eq_sub (a b : Nat) (hb : b ≤ a) (hd : a - b < 4294967296) :
    usub32 a b = a - b := by
  unfold usub32; omega

theorem runPin_append (p : PinState) (a b : List Ev) :
    runPin p (a ++ b) = runPin (runPin p a) b := by
  simp [runPin, List.foldl_append]

theorem slotsEvents_cons (wt st : Nat) (sl : Slot) (slots : List Slot) :
    slotsEvents wt st (sl :: slots) =
      slotEvents wt st sl ++ slotsEvents wt st slots := by
  simp [slotsEvents]

theorem runPin_slot (wt st : Nat) (sl : Slot) :
    runPin idlePin (slotEvents wt st sl) = idlePin := by
  cases sl <;>
    simp [slotEvents, opSignalEv, runPin, stepPin, idlePin,
      OPT_WR1_PAUSE, OPT_WR1_SIGNAL, OPT_WR0_PAUSE, OPT_WR0_SIGNAL, OPT]

theorem runPin_slots (wt st : Nat) (slots : List Slot) :
    runPin idlePin (slotsEvents wt st slots) = idlePin := by
  induction slots with
  | nil => rfl
  | cons sl tl ih =>
      rw [slotsEvents_cons, runPin_append, runPin_slot, ih]

theorem writeSlotList_length (n v : Nat) :
    (MD_OnePin.writeSlotList v n).length = n := by
  induction n generalizing v with
  | zero => rfl
  | succ n ih => simp [MD_OnePin.writeSlotList, ih]

theorem writeSlotList_isData (n v : Nat) :
    ∀ sl ∈ MD_OnePin.writeSlotList v n, sl.isData = true := by
  induction n generalizing v with
  | zero => simp [MD_OnePin.writeSlotList]
  | succ n ih =>
      intro sl hsl
      rcases List.mem_cons.mp hsl with h | h
      · subst h
        by_cases hb : v % 2 = 1
        · simp [hb, Slot.isData]
        · simp [hb, Slot.isData]
      · exact ih (v / 2) sl h

theorem writeSlotList_getElem (n v i : Nat) (hi : i < n) :
    (MD_OnePin.writeSlotList v n)[i]? =
      some (if v.testBit i then Slot.wr1 else Slot.wr0) := by
  induction n generalizing v i with
  | zero => omega
  | succ n ih =>
      cases i with
      | zero =>
          have h0 : v.testBit 0 = decide (v % 2 = 1) := Nat.testBit_zero v
          by_cases hb : v % 2 = 1 <;> simp [MD_OnePin.writeSlotList, hb, h0]
      | succ i =>
          have hs : v.testBit (i + 1) = (v / 2).testBit i := Nat.testBit_succ v i
          simp [MD_OnePin.writeSlotList, hs, ih (v / 2) i (by omega)]

theorem decode_writeSlotList (n v : Nat) :
    decodeSlots (MD_OnePin.writeSlotList v n) = v % 2 ^ n := by
  induction n generalizing v with
  | zero => simp [MD_OnePin.writeSlotList, decodeSlots, Nat.mod_one]
  | succ n ih =>
      have hmod : v % 2 ^ (n + 1) = v % 2 + 2 * (v / 2 % 2 ^ n) := by
        rw [pow_succ, mul_comm, Nat.mod_mul]
      by_cases hb : v % 2 = 1
      · simp [MD_OnePin.writeSlotList, hb, decodeSlots, ih, hmod]
      · simp [MD_OnePin.writeSlotList, hb, decodeSlots, ih, hmod]
        omega

theorem readLoop_length (bits : Nat → Bool) (n : Nat) :
    ∀ i packet mask, (MD_OnePin.readLoop bits n i packet mask).2.length = n := by
  induction n with
  | zero => intro i packet mask; rfl
  | succ n ih =>
      intro i packet mask
      simp [MD_OnePin.readLoop, ih]

theorem readLoop_isRd (bits : Nat → Bool) (n : Nat) :
    ∀ i packet mask sl, sl ∈ (MD_OnePin.readLoop bits n i packet mask).2 →
      sl.isRd = true := by
  induction n with
  | zero => intro i packet mask sl h; simp [MD_OnePin.readLoop] at h
  | succ n ih =>
      intro i packet mask sl h
      simp only [MD_OnePin.readLoop, List.mem_cons] at h
      rcases h with h | h
      · subst h; rfl
      · exact ih (i + 1) _ _ sl h

theorem readLoop_testBit (bits : Nat → Bool) (n : Nat) :
    ∀ i packet, i + n ≤ 32 → packet < 2 ^ 32 → ∀ j,
      (MD_OnePin.readLoop bits n i packet (2 ^ i % 4294967296)).1.testBit j =
        (packet.testBit j || (decide (i ≤ j) && decide (j < i + n) && bits j)) := by
  induction n with
  | zero =>
      intro i packet hn hp j
      simp [MD_OnePin.readLoop]
  | succ n ih =>
      intro i packet hn hp j
      have hi32 : i < 32 := by omega
      have hpow : (2 : Nat) ^ i < 2 ^ 32 := Nat.pow_lt_pow_right (by norm_num) hi32
      have hmask : 2 ^ i % 4294967296 = 2 ^ i := Nat.mod_eq_of_lt (by exact_mod_cast hpow)
      have hp1 : (if bits i then packet ||| 2 ^ i else packet) < 2 ^ 32 := by
        by_cases hb : bits i
        · simpa [hb] using Nat.or_lt_two_pow hp hpow
        · simpa [hb] using hp
      have ihx := ih (i + 1) (if bits i then packet ||| 2 ^ i else packet)
        (by omega) hp1 j
      simp only [MD_OnePin.readLoop, hmask]
      rw [show (2:Nat) ^ i * 2 % 4294967296 = 2 ^ (i+1) % 4294967296 by
        rw [pow_succ]]
      rw [ihx]
      have harith : (decide (i + 1 ≤ j) && decide (j < i + 1 + n)) =
          (decide (i ≤ j) && decide (j < i + (n + 1)) && decide (i ≠ j)) := by
        by_cases h1 : i + 1 ≤ j <;> by_cases h2 : j < i + 1 + n <;>
          by_cases h3 : i ≤ j <;> by_cases h4 : j < i + (n + 1) <;>
          by_cases h5 : i = j <;> simp_all <;> omega
      by_cases hb : bits i
      · have hpj : (packet ||| 2 ^ i).testBit j =
            (packet.testBit j || decide (i = j)) := by
          rw [Nat.testBit_lor, Nat.testBit_two_pow]
        simp only [hb, if_true, hpj, harith]
        by_cases hij : i = j
        · subst hij
          simp [hb]
        · simp [hij]
      · simp only [hb, if_false, harith]
        by_cases hij : i = j
        · subst hij
          simp [hb]
        · simp [hij]

theorem readLoop_lt (bits : Nat → Bool) (n : Nat) :
    ∀ i packet, packet < 2 ^ i → i + n ≤ 32 →
      (MD_OnePin.readLoop bits n i packet (2 ^ i % 4294967296)).1 < 2 ^ (i + n) := by
  induction n with
  | zero => intro i packet hp hn; simpa [MD_OnePin.readLoop] using hp
  | succ n ih =>
      intro i packet hp hn
      have hi32 : i < 32 := by omega
      have hpow : (2 : Nat) ^ i < 2 ^ 32 := Nat.pow_lt_pow_right (by norm_num) hi32
      have hmask : 2 ^ i % 4294967296 = 2 ^ i := Nat.mod_eq_of_lt (by exact_mod_cast hpow)
      have hmono : (2 : Nat) ^ i < 2 ^ (i + 1) :=
        Nat.pow_lt_pow_right (by norm_num) (by omega)
      have hp1 : (if bits i then packet ||| 2 ^ i else packet) < 2 ^ (i + 1) := by
        by_cases hb : bits i
        · simpa [hb] using Nat.or_lt_two_pow (lt_trans hp hmono) hmono
        · simp [hb]; exact lt_trans hp hmono
      have ihx := ih (i + 1) (if bits i then packet ||| 2 ^ i else packet) hp1 (by omega)
      simp only [MD_OnePin.readLoop, hmask]
      rw [show (2:Nat) ^ i * 2 % 4294967296 = 2 ^ (i+1) % 4294967296 by rw [pow_succ]]
      have : i + 1 + n = i + (n + 1) := by omega
      rw [this] at ihx
      exact ihx

theorem writeSlotList_noReset (n v : Nat) :
    (MD_OnePin.writeSlotList v n).countP Slot.isReset = 0 := by
  rw [List.countP_eq_zero]
  intro sl hsl
  have := writeSlotList_isData n v sl hsl
  cases sl <;> simp_all [Slot.isData, Slot.isReset]

theorem readLoop_noReset (bits : Nat → Bool) (n i packet mask : Nat) :
    (MD_OnePin.readLoop bits n i packet mask).2.countP Slot.isReset = 0 := by
  rw [List.countP_eq_zero]
  intro sl hsl
  have := readLoop_isRd bits n i packet mask sl hsl
  cases sl <;> simp_all [Slot.isRd, Slot.isReset]

set_option maxRecDepth 8192 in
theorem runPin_beginEvents (p : PinState) :
    runPin p MD_OnePin.beginEvents = idlePin := by
  rcases p with ⟨o, l⟩
  cases o <;> cases l <;> rfl

theorem read_slots_value (s : MD_OnePin) (nr level : Bool) (bits : Nat → Bool)
    (hbs : s.bppSec ≤ 32) (hpath : nr = true ∨ level = false) :
    ((MD_OnePin.read s nr level bits).2.1.countP Slot.isRd = s.bppSec) ∧
    (∀ j, (MD_OnePin.read s nr level bits).2.2.testBit j =
        (decide (j < s.bppSec) && bits j)) ∧
    (MD_OnePin.read s nr level bits).2.2 < 2 ^ s.bppSec := by
  have hone : (1 : Nat) = 2 ^ 0 % 4294967296 := by norm_num
  have hbit : ∀ j, (MD_OnePin.readLoop bits s.bppSec 0 0 1).1.testBit j =
      (decide (j < s.bppSec) && bits j) := by
    intro j
    rw [hone, readLoop_testBit bits s.bppSec 0 0 (by omega) (by norm_num) j]
    simp
  have hlt : (MD_OnePin.readLoop bits s.bppSec 0 0 1).1 < 2 ^ s.bppSec := by
    have := readLoop_lt bits s.bppSec 0 0 (by norm_num) (by omega)
    rw [hone]
    simpa using this
  have hcount : (MD_OnePin.readLoop bits s.bppSec 0 0 1).2.countP Slot.isRd
      = s.bppSec := by
    rw [List.countP_eq_length.mpr (readLoop_isRd bits s.bppSec 0 0 1),
      readLoop_length]
  rcases hpath with h | h
  · subst h
    exact ⟨by simpa [MD_OnePin.read] using hcount, by
      simpa [MD_OnePin.read] using hbit, by simpa [MD_OnePin.read] using hlt⟩
  · subst h
    cases nr
    · refine ⟨?_, ?_, ?_⟩
      · simpa [MD_OnePin.read, MD_OnePin.resetComm, List.countP_cons, Slot.isRd]
          using hcount
      · simpa [MD_OnePin.read, MD_OnePin.resetComm] using hbit
      · simpa [MD_OnePin.read, MD_OnePin.resetComm] using hlt
    · exact ⟨by simpa [MD_OnePin.read] using hcount, by
        simpa [MD_OnePin.read] using hbit, by simpa [MD_OnePin.read] using hlt⟩

/-! ## Claim theorems -/

/-- Claim C1: absence short-circuit.  When the line stays HIGH through
the presence sample (sampled level `true`), `write(data, noReset=false)`
returns `false` with a trace of just the Reset/Presence slot (zero data
slots), and `read(noReset=false)` returns `0xFFFFFFFF` with a trace of
just the Reset/Presence slot (zero Read slots). -/
theorem absence_short_circuit (s : MD_OnePin) (data : Nat) (bits : Nat → Bool) :
    (MD_OnePin.write s data false true).2.2 = false ∧
    (MD_OnePin.write s data false true).2.1 = [Slot.rstP true] ∧
    ((MD_OnePin.write s data false true).2.1.countP Slot.isData = 0) ∧
    (MD_OnePin.read s false true bits).2.2 = 4294967295 ∧
    (MD_OnePin.read s false true bits).2.1 = [Slot.rstP true] ∧
    ((MD_OnePin.read s false true bits).2.1.countP Slot.isRd = 0) := by
  refine ⟨?_, ?_, ?_, ?_, ?_, ?_⟩ <;>
    simp [MD_OnePin.write, MD_OnePin.read, MD_OnePin.resetComm,
      List.countP_cons, Slot.isData, Slot.isRd]

/-- Claim C2: LSB-first write round-trip.  For a 32-bit value `v` and
configured width `bppPri` in `[1, 32]`, when presence is established
(`level = false` on the reset sample) or `noReset = true`, `write v`
emits exactly `bppPri` data slots after the optional reset slot, slot
`i` being Write-1 exactly when bit `i` of `v` is set, and the slot
sequence decodes back to `v % 2 ^ bppPri` (that is, `v` masked to the
configured width). -/
theorem write_lsb_roundtrip (s : MD_OnePin) (v : Nat) (nr level : Bool)
    (hv : v < 2 ^ 32) (_hw1 : 1 ≤ s.bppPri) (_hw32 : s.bppPri ≤ 32)
    (hcond : nr = true ∨ level = false) :
    ∃ ws : List Slot,
      (MD_OnePin.write s v nr level).2.1 =
        (if nr then [] else [Slot.rstP level]) ++ ws ∧
      ws.length = s.bppPri ∧
      (∀ i, i < s.bppPri →
        ws[i]? = some (if v.testBit i then Slot.wr1 else Slot.wr0)) ∧
      decodeSlots ws = v % 2 ^ s.bppPri := by
  have hmod : v % 4294967296 = v := Nat.mod_eq_of_lt (by exact_mod_cast hv)
  refine ⟨MD_OnePin.writeSlotList v s.bppPri, ?_, writeSlotList_length _ _,
    fun i hi => writeSlotList_getElem _ v i hi, decode_writeSlotList _ _⟩
  rcases hcond with h | h
  · subst h; simp [MD_OnePin.write, hmod]
  · subst h
    cases nr <;> simp [MD_OnePin.write, MD_OnePin.resetComm, hmod]

/-- Witness for claim C2 at `bppPri = 8`, `v = 180 = 0xB4`, with a
performed reset that sampled LOW. -/
theorem write_lsb_roundtrip_witness :
    ∃ ws : List Slot,
      (MD_OnePin.write (MD_OnePin.construct 3 8 8 0 0) 180 false false).2.1 =
        [Slot.rstP false] ++ ws ∧
      ws.length = 8 ∧
      (∀ i, i < 8 →
        ws[i]? = some (if (180 : Nat).testBit i then Slot.wr1 else Slot.wr0)) ∧
      decodeSlots ws = 180 % 2 ^ 8 := by
  have h := write_lsb_roundtrip (MD_OnePin.construct 3 8 8 0 0) 180 false false
    (by norm_num) (by decide) (by decide) (Or.inr rfl)
  simpa [MD_OnePin.construct] using h

/-- Claim C3: read bit placement and masking.  On every path of `read`
that does not take the absence short-circuit (`noReset = true`, or a
reset whose presence sample read LOW), the trace holds exactly `bppSec`
Read slots, bit `j` of the result is the level sampled in slot `j` for
`j < bppSec` (mask `1 <<< j`, LSB first), and every bit at position
`bppSec` or above is zero (the result is below `2 ^ bppSec`). -/
theorem read_bit_placement (s : MD_OnePin) (nr level : Bool) (bits : Nat → Bool)
    (hbs : s.bppSec ≤ 32) (hpath : nr = true ∨ level = false) :
    ((MD_OnePin.read s nr level bits).2.1.countP Slot.isRd = s.bppSec) ∧
    (∀ j, (MD_OnePin.read s nr level bits).2.2.testBit j =
        (decide (j < s.bppSec) && bits j)) ∧
    (MD_OnePin.read s nr level bits).2.2 < 2 ^ s.bppSec :=
  read_slots_value s nr level bits hbs hpath

/-- Witness for claim C3 at `bppSec = 8` with a performed reset that
sampled LOW and SEC bits `0, 1, 2` held HIGH. -/
theorem read_bit_placement_witness :
    ((MD_OnePin.read (MD_OnePin.construct 3 8 8 0 0) false false
        (fun i => decide (i < 3))).2.1.countP Slot.isRd = 8) ∧
    ((MD_OnePin.read (MD_OnePin.construct 3 8 8 0 0) false false
        (fun i => decide (i < 3))).2.2.testBit 1 = true) ∧
    ((MD_OnePin.read (MD_OnePin.construct 3 8 8 0 0) false false
        (fun i => decide (i < 3))).2.2 < 2 ^ 8) := by
  have h := read_bit_placement (MD_OnePin.construct 3 8 8 0 0) false false
    (fun i => decide (i < 3)) (by decide) (Or.inr rfl)
  refine ⟨by simpa [MD_OnePin.construct] using h.1, ?_,
    by simpa [MD_OnePin.construct] using h.2.2⟩
  have := h.2.1 1
  simpa [MD_OnePin.construct] using this

/-- Claim C9 (implicit): `read(noReset=true)` never takes the absence
short-circuit: whatever the stored presence (in particular `false`), it
performs exactly `bppSec` Read slots and no Reset/Presence slot, returns
the accumulated value (bit `j` is the level sampled in slot `j`), and
leaves the whole object state, presence included, unchanged. -/
theorem read_noReset_no_sentinel (s : MD_OnePin) (level : Bool)
    (bits : Nat → Bool) (hbs : s.bppSec ≤ 32) (_hpre : s.presence = false) :
    (MD_OnePin.read s true level bits).1 = s ∧
    ((MD_OnePin.read s true level bits).2.1.countP Slot.isRd = s.bppSec) ∧
    ((MD_OnePin.read s true level bits).2.1.countP Slot.isReset = 0) ∧
    (∀ j, (MD_OnePin.read s true level bits).2.2.testBit j =
        (decide (j < s.bppSec) && bits j)) := by
  have h := read_slots_value s true level bits hbs (Or.inl rfl)
  exact ⟨rfl, h.1, by simp [MD_OnePin.read, readLoop_noReset], h.2.1⟩

/-- Witness for claim C9: a freshly constructed object (presence false),
`read(noReset=true)` with all SEC bits HIGH. -/
theorem read_noReset_no_sentinel_witness :
    ((MD_OnePin.read (MD_OnePin.construct 3 8 8 0 0) true true
        (fun _ => true)).1 = MD_OnePin.construct 3 8 8 0 0) ∧
    ((MD_OnePin.read (MD_OnePin.construct 3 8 8 0 0) true true
        (fun _ => true)).2.1.countP Slot.isRd = 8) ∧
    ((MD_OnePin.read (MD_OnePin.construct 3 8 8 0 0) true true
        (fun _ => true)).2.2.testBit 3 = true) ∧
    ((MD_OnePin.construct 3 8 8 0 0).presence = false) := by
  have h := read_noReset_no_sentinel (MD_OnePin.construct 3 8 8 0 0) true
    (fun _ => true) (by decide) (by decide)
  refine ⟨h.1, by simpa [MD_OnePin.construct] using h.2.1, ?_, by decide⟩
  have := h.2.2.2 3
  simpa [MD_OnePin.construct] using this

/-- Claim C10 (implicit): `write(data, noReset=true)` transmits all
`bppPri` data slots unconditionally, leaves the object state (presence
included) unchanged, and returns the stored presence value from the most
recent earlier Reset/Presence slot — so it can return `false` even
though the full packet was just transmitted. -/
theorem write_noReset (s : MD_OnePin) (data : Nat) (level : Bool) :
    (MD_OnePin.write s data true level).1 = s ∧
    (MD_OnePin.write s data true level).2.2 = s.presence ∧
    (MD_OnePin.write s data true level).2.1.length = s.bppPri ∧
    (∀ sl ∈ (MD_OnePin.write s data true level).2.1, sl.isData = true) := by
  refine ⟨rfl, rfl, ?_, ?_⟩
  · simp [MD_OnePin.write, writeSlotList_length]
  · intro sl hsl
    simp only [MD_OnePin.write] at hsl
    simp at hsl
    exact writeSlotList_isData _ _ sl hsl

/-- Claim C8: reset ordering.  With `noReset = false`, both `write` and
`read` emit a trace headed by exactly one Reset/Presence slot, followed
only by slots that are not Reset/Presence (so the unique reset precedes
every data slot); with `noReset = true` the trace holds no
Reset/Presence slot at all. -/
theorem reset_ordering (s : MD_OnePin) (data : Nat) (level : Bool)
    (bits : Nat → Bool) :
    (∃ tl, (MD_OnePin.write s data false level).2.1 = Slot.rstP level :: tl ∧
        tl.countP Slot.isReset = 0) ∧
    ((MD_OnePin.write s data true level).2.1.countP Slot.isReset = 0) ∧
    (∃ tl, (MD_OnePin.read s false level bits).2.1 = Slot.rstP level :: tl ∧
        tl.countP Slot.isReset = 0) ∧
    ((MD_OnePin.read s true level bits).2.1.countP Slot.isReset = 0) := by
  refine ⟨?_, ?_, ?_, ?_⟩
  · by_cases hl : level
    · subst hl
      exact ⟨[], by simp [MD_OnePin.write, MD_OnePin.resetComm], rfl⟩
    · simp only [Bool.not_eq_true] at hl; subst hl
      refine ⟨MD_OnePin.writeSlotList (data % 4294967296) s.bppPri, ?_,
        writeSlotList_noReset _ _⟩
      simp [MD_OnePin.write, MD_OnePin.resetComm]
  · simp [MD_OnePin.write, writeSlotList_noReset]
  · by_cases hl : level
    · subst hl
      exact ⟨[], by simp [MD_OnePin.read, MD_OnePin.resetComm], rfl⟩
    · simp only [Bool.not_eq_true] at hl; subst hl
      refine ⟨(MD_OnePin.readLoop bits s.bppSec 0 0 1).2, ?_,
        readLoop_noReset _ _ _ _ _⟩
      simp [MD_OnePin.read, MD_OnePin.resetComm]
  · simp [MD_OnePin.read, readLoop_noReset]

set_option maxRecDepth 8192 in
/-- Claim C7: idle invariant.  Starting from the idle pin state (driven
output HIGH), the primitive event trace of every `write`, every `read`
and every `resetComm` — for every input value, noReset flag and sampled
line levels — ends in the idle pin state; the trace of `begin` ends in
the idle pin state from any starting pin state whatsoever. -/
theorem idle_invariant (s : MD_OnePin) (data : Nat) (nr level : Bool)
    (bits : Nat → Bool) (c0 c1 c2 c3 : Nat) :
    runPin idlePin (slotsEvents s.writeTime s.switchTime
      (MD_OnePin.write s data nr level).2.1) = idlePin ∧
    runPin idlePin (slotsEvents s.writeTime s.switchTime
      (MD_OnePin.read s nr level bits).2.1) = idlePin ∧
    runPin idlePin (slotsEvents s.writeTime s.switchTime
      (MD_OnePin.resetComm s level).2.1) = idlePin ∧
    (∀ p : PinState, runPin p (MD_OnePin.begin s c0 c1 c2 c3).2 = idlePin) :=
  ⟨runPin_slots _ _ _, runPin_slots _ _ _, runPin_slots _ _ _,
    fun p => runPin_beginEvents p⟩

/-- Claim C5, counterexample: the constructor performs no width
validation.  Constructing with `bppPri = 0` (outside `[1, 32]`) does not
fail: it yields an instance that stores width 0 and is usable —
`write(5, noReset=true)` on it runs normally, emitting zero data slots
and returning the stored presence.  A width of 40 (also outside
`[1, 32]`) is likewise stored unchanged. -/
theorem construct_no_validation_cex :
    (MD_OnePin.construct 3 0 8 0 0).bppPri = 0 ∧
    (MD_OnePin.write (MD_OnePin.construct 3 0 8 0 0) 5 true true).2.1 = [] ∧
    (MD_OnePin.write (MD_OnePin.construct 3 0 8 0 0) 5 true true).2.2 = false ∧
    (MD_OnePin.construct 3 40 8 0 0).bppPri = 40 := by
  refine ⟨rfl, ?_, rfl, rfl⟩
  simp [MD_OnePin.construct, MD_OnePin.write, MD_OnePin.writeSlotList]

/-- Claim C5, amended: construction never fails and performs no width
validation; every width below 256 (in particular every width inside
`[1, 32]`) is stored exactly as given, and the new instance starts with
`presence = false`. -/
theorem construct_stores_widths (pin bppPri bppSec st0 wt0 : Nat)
    (hp : bppPri < 256) (hs : bppSec < 256) :
    (MD_OnePin.construct pin bppPri bppSec st0 wt0).bppPri = bppPri ∧
    (MD_OnePin.construct pin bppPri bppSec st0 wt0).bppSec = bppSec ∧
    (MD_OnePin.construct pin bppPri bppSec st0 wt0).presence = false := by
  simp [MD_OnePin.construct, Nat.mod_eq_of_lt hp, Nat.mod_eq_of_lt hs]

/-- Witness for the amended claim C5 at widths 32 and 8. -/
theorem construct_stores_widths_witness :
    (MD_OnePin.construct 3 32 8 0 0).bppPri = 32 ∧
    (MD_OnePin.construct 3 32 8 0 0).bppSec = 8 ∧
    (MD_OnePin.construct 3 32 8 0 0).presence = false :=
  construct_stores_widths 3 32 8 0 0 (by norm_num) (by norm_num)

/-- Claim C4, counterexample: delay arguments are not clamped to zero.
`begin` run with clock readings making the measured `_writeTime` 100 µs
(more than the 40 µs nominal of a Write-1 low signal) followed by
`write(1, noReset=true)` issues `delayMicroseconds` with the wrapped
unsigned argument `40 - 100 = 65476 (mod 2^16)`, not the clamped 0 the
claim asserts. -/
theorem delay_no_clamping_cex :
    (MD_OnePin.begin (MD_OnePin.construct 3 1 8 0 0) 0 0 0 25600).1.writeTime
      = 100 ∧
    slotsEvents
      (MD_OnePin.begin (MD_OnePin.construct 3 1 8 0 0) 0 0 0 25600).1.writeTime
      (MD_OnePin.begin (MD_OnePin.construct 3 1 8 0 0) 0 0 0 25600).1.switchTime
      (MD_OnePin.write
        (MD_OnePin.begin (MD_OnePin.construct 3 1 8 0 0) 0 0 0 25600).1
        1 true true).2.1
      = [Ev.driveLow, Ev.delayUs 65476, Ev.driveHigh, Ev.delayUs 65476] ∧
    (65476 : Nat) ≠ 0 := by
  refine ⟨rfl, ?_, by norm_num⟩
  rfl

/-- Claim C4, amended: every delay argument is the nominal slot time
minus the calibration correction computed in wrapping unsigned 16-bit
arithmetic, with no clamping; whenever the corrections do not exceed the
smallest nominals they are subtracted from (`_writeTime ≤ 40 µs`, the
Write-1 low time, and `_switchTime ≤ 40 µs`, the read sample offset),
every delay argument of every slot equals exactly nominal minus
correction and no argument underflows (all stay at or below the 400 µs
reset nominal). -/
theorem delay_args_exact (wt st : Nat) (level b : Bool)
    (hwt : wt ≤ OPT_WR1_SIGNAL) (hst : st ≤ OPT_RD_SAMPLE) :
    slotEvents wt st (Slot.rstP level) =
      [Ev.setOutput, Ev.driveLow, Ev.delayUs (OPT_RST_SIGNAL - wt), Ev.driveHigh,
       Ev.setInput, Ev.delayUs (OPT_RST_PRS_SAMPLE - st), Ev.sampleIn level,
       Ev.setOutput, Ev.delayUs (OPT_RST_END - st)] ∧
    slotEvents wt st Slot.wr1 =
      [Ev.driveLow, Ev.delayUs (OPT_WR1_SIGNAL - wt), Ev.driveHigh,
       Ev.delayUs (OPT_WR1_PAUSE - wt)] ∧
    slotEvents wt st Slot.wr0 =
      [Ev.driveLow, Ev.delayUs (OPT_WR0_SIGNAL - wt), Ev.driveHigh,
       Ev.delayUs (OPT_WR0_PAUSE - wt)] ∧
    slotEvents wt st (Slot.rdBit b) =
      [Ev.driveLow, Ev.delayUs (OPT_RD_INIT - wt), Ev.driveHigh,
       Ev.setInput, Ev.delayUs (OPT_RD_SAMPLE - st), Ev.sampleIn b,
       Ev.setOutput, Ev.delayUs (OPT_RD_PAUSE - st)] ∧
    (∀ sl : Slot, ∀ n : Nat, Ev.delayUs n ∈ slotEvents wt st sl →
      n ≤ OPT_RST_SIGNAL) := by
  have hwt40 : wt ≤ 40 := by simpa [OPT_WR1_SIGNAL, OPT] using hwt
  have hst40 : st ≤ 40 := by simpa [OPT_RD_SAMPLE, OPT_RD0_SIGNAL, OPT] using hst
  have e1 : usub16 400 wt = 400 - wt := by unfold usub16; omega
  have e2 : usub16 80 st = 80 - st := by unfold usub16; omega
  have e3 : usub16 120 st = 120 - st := by unfold usub16; omega
  have e4 : usub16 40 wt = 40 - wt := by unfold usub16; omega
  have e5 : usub16 120 wt = 120 - wt := by unfold usub16; omega
  have e6 : usub16 200 wt = 200 - wt := by unfold usub16; omega
  have e7 : usub16 40 st = 40 - st := by unfold usub16; omega
  refine ⟨?_, ?_, ?_, ?_, ?_⟩
  · simp [slotEvents, opSignalEv, e1, e2, e3, OPT_RST_SIGNAL,
      OPT_RST_PRS_SAMPLE, OPT_RST_END, OPT]
  · simp [slotEvents, opSignalEv, e4, OPT_WR1_PAUSE, OPT_WR1_SIGNAL, OPT]
  · simp [slotEvents, opSignalEv, e4, e5, OPT_WR0_PAUSE, OPT_WR0_SIGNAL, OPT]
  · simp [slotEvents, opSignalEv, e2, e6, e7, OPT_RD_INIT, OPT_RD_SAMPLE,
      OPT_RD0_SIGNAL, OPT_RD_PAUSE, OPT]
  · intro sl n hn
    cases sl <;>
      simp [slotEvents, opSignalEv, e1, e2, e3, e4, e5, e6, e7,
        OPT_RST_SIGNAL, OPT_RST_PRS_SAMPLE, OPT_RST_END, OPT_WR1_SIGNAL,
        OPT_WR1_PAUSE, OPT_WR0_SIGNAL, OPT_WR0_PAUSE, OPT_RD_INIT,
        OPT_RD_SAMPLE, OPT_RD0_SIGNAL, OPT_RD_PAUSE, OPT] at hn ⊢ <;>
      omega

/-- Witness for the amended claim C4 with both corrections equal to
6 µs, as in the spec scenario S6: every low-duration delay argument is
nominal minus 6. -/
theorem delay_args_exact_witness :
    slotEvents 6 6 Slot.wr1 =
      [Ev.driveLow, Ev.delayUs (OPT_WR1_SIGNAL - 6), Ev.driveHigh,
       Ev.delayUs (OPT_WR1_PAUSE - 6)] ∧
    slotEvents 6 6 Slot.wr0 =
      [Ev.driveLow, Ev.delayUs (OPT_WR0_SIGNAL - 6), Ev.driveHigh,
       Ev.delayUs (OPT_WR0_PAUSE - 6)] ∧
    slotEvents 6 6 (Slot.rdBit true) =
      [Ev.driveLow, Ev.delayUs (OPT_RD_INIT - 6), Ev.driveHigh,
       Ev.setInput, Ev.delayUs (OPT_RD_SAMPLE - 6), Ev.sampleIn true,
       Ev.setOutput, Ev.delayUs (OPT_RD_PAUSE - 6)] := by
  have h := delay_args_exact 6 6 true true (by decide) (by decide)
  exact ⟨h.2.1, h.2.2.1, h.2.2.2.1⟩

/-- Claim C6: calibration postcondition of `begin`.  With monotonic
clock readings `c0 ≤ c1` (around the 64 direction-switch iterations) and
`c2 ≤ c3` (around the 128 drive iterations), elapsed times below `2^32`
and quotients below `2^16`, `begin` on a freshly constructed instance
sets `switchTime` to the elapsed microseconds divided by 128 and
`writeTime` to the second elapsed time divided by 256 (integer
division), leaves `presence` false, emits exactly 64 iterations of
(set-output, set-input-with-pullup) then 128 iterations of (drive-high,
drive-low), and leaves the pin driven HIGH from any starting pin
state. -/
theorem begin_calibration (pin bppPri bppSec st0 wt0 c0 c1 c2 c3 : Nat)
    (h01 : c0 ≤ c1) (hd1 : c1 - c0 < 4294967296)
    (hq1 : (c1 - c0) / 128 < 65536)
    (h23 : c2 ≤ c3) (hd2 : c3 - c2 < 4294967296)
    (hq2 : (c3 - c2) / 256 < 65536) :
    (MD_OnePin.begin (MD_OnePin.construct pin bppPri bppSec st0 wt0)
        c0 c1 c2 c3).1.switchTime = (c1 - c0) / 128 ∧
    (MD_OnePin.begin (MD_OnePin.construct pin bppPri bppSec st0 wt0)
        c0 c1 c2 c3).1.writeTime = (c3 - c2) / 256 ∧
    (MD_OnePin.begin (MD_OnePin.construct pin bppPri bppSec st0 wt0)
        c0 c1 c2 c3).1.presence = false ∧
    (MD_OnePin.begin (MD_OnePin.construct pin bppPri bppSec st0 wt0)
        c0 c1 c2 c3).2 =
      (List.replicate 64 [Ev.setOutput, Ev.setInput]).flatten ++
        [Ev.setOutput] ++
          (List.replicate 128 [Ev.driveHigh, Ev.driveLow]).flatten ++
            [Ev.driveHigh] ∧
    (∀ p : PinState,
      runPin p (MD_OnePin.begin (MD_OnePin.construct pin bppPri bppSec st0 wt0)
        c0 c1 c2 c3).2 = idlePin) := by
  refine ⟨?_, ?_, rfl, rfl, fun p => runPin_beginEvents p⟩
  · show usub32 c1 c0 / 128 % 65536 = (c1 - c0) / 128
    rw [usub32_eq_sub c1 c0 h01 hd1, Nat.mod_eq_of_lt hq1]
  · show usub32 c3 c2 / 256 % 65536 = (c3 - c2) / 256
    rw [usub32_eq_sub c3 c2 h23 hd2, Nat.mod_eq_of_lt hq2]

/-- Witness for claim C6: clock readings 0, 1280, 2000, 4560 give
`switchTime = 10` and `writeTime = 10`. -/
theorem begin_calibration_witness :
    (MD_OnePin.begin (MD_OnePin.construct 3 32 8 0 0)
        0 1280 2000 4560).1.switchTime = 10 ∧
    (MD_OnePin.begin (MD_OnePin.construct 3 32 8 0 0)
        0 1280 2000 4560).1.writeTime = 10 ∧
    (MD_OnePin.begin (MD_OnePin.construct 3 32 8 0 0)
        0 1280 2000 4560).1.presence = false ∧
    runPin { output := false, level := false }
      (MD_OnePin.begin (MD_OnePin.construct 3 32 8 0 0)
        0 1280 2000 4560).2 = idlePin := by
  have h := begin_calibration 3 32 8 0 0 0 1280 2000 4560
    (by norm_num) (by norm_num) (by norm_num)
    (by norm_num) (by norm_num) (by norm_num)
  exact ⟨by simpa using h.1, by simpa using h.2.1, h.2.2.1,
    h.2.2.2.2 { output := false, level := false }⟩
